import Mathlib

/-!
Verification of the SmartGuard face-stream server (src/server.py) against its
natural-language specification.  The Python source is shallowly embedded:
pure computations become Lean functions, the per-request handlers become
explicit state-passing functions, the capture worker becomes a fuelled loop
producing an event trace, and the unlocked start-handler race is modelled as
an interleaving transition system.  Machine floats of the source carry only
comparisons and one mean, so confidences and timestamps are modelled as
rationals; images are opaque values (their pixel content never influences the
control flow under scrutiny).
-/

namespace SmartGuard

/-! ## Configuration constants (the environment-variable defaults of server.py) -/

/-- Default of DETECT_EVERY_N in server.py (line 36). -/
def DETECT_EVERY_N : Nat := 1

/-- Default of RECOG_EVERY_N in server.py (line 37). -/
def RECOG_EVERY_N : Nat := 2

/-- Default of RECOG_MIN_SIDE in server.py (line 39). -/
def RECOG_MIN_SIDE : Nat := 48

/-- Default of VOTE_WINDOW in server.py (line 40). -/
def VOTE_WINDOW : Nat := 5

/-- Default of VOTE_REQUIRE in server.py (line 41). -/
def VOTE_REQUIRE : Nat := 3

/-- Default of RECOG_THRESHOLD in server.py (line 31). -/
def RECOG_THRESHOLD : ℚ := 11

/-- Default of CURRENT_EXPIRE_SEC in server.py (line 50). -/
def CURRENT_EXPIRE_SEC : ℚ := 3 / 2

/-! ## Detection and recognition decimation (detection_loop, lines 174-201)

The loop increments frame_idx before each cycle, so cycle indices start at 1.
The detector runs when frame_idx mod max(1, DETECT_EVERY_N) == 0; otherwise
the previous cycle keeps faces_fullres unchanged.  Recognition runs when
frame_idx mod max(1, RECOG_EVERY_N) == 0. -/

/-- A detected box in full-resolution coordinates: (x, y, w, h). -/
abbrev FaceBox := Nat × Nat × Nat × Nat

/-- Embeds the test on line 177: do_detect = (frame_idx % max(1, DETECT_EVERY_N) == 0). -/
def doDetect (detectEveryN frameIdx : Nat) : Bool :=
  frameIdx % max 1 detectEveryN == 0

/-- Embeds the test on line 201: do_recog = (frame_idx % max(1, RECOG_EVERY_N) == 0). -/
def doRecog (recogEveryN frameIdx : Nat) : Bool :=
  frameIdx % max 1 recogEveryN == 0

/-- The faces_fullres state across cycles (lines 164, 190-199): index 0 is the
initial empty list; on cycle i+1 the detector output replaces the list only on
detection cycles, otherwise the previous list is reused.  The function
`detect` stands for the black-box Detector applied to the frame of a cycle. -/
def facesSeq (detectEveryN : Nat) (detect : Nat → List FaceBox) : Nat → List FaceBox
  | 0 => []
  | i + 1 => if doDetect detectEveryN (i + 1) then detect (i + 1) else facesSeq detectEveryN detect i

/-! ## Current-people expiry filter (api_current, lines 743-751) -/

/-- One entry of the published people list (faces_out element, lines 242-247). -/
structure DetectedPerson where
  label : String
  conf : Option ℚ
  bbox : FaceBox
  ts : ℚ
deriving DecidableEq

/-- Embeds the filter of api_current (lines 745-750): keep the people whose
timestamp is at most CURRENT_EXPIRE_SEC old relative to now. -/
def apiCurrent (now : ℚ) (people : List DetectedPerson) : List DetectedPerson :=
  people.filter (fun p => now - p.ts ≤ CURRENT_EXPIRE_SEC)

/-! ## Recognizer state and reload (reload_recognizer, lines 135-146)

The LBPH internals are out of scope; a trained model is identified with the
prepared training samples and their id sequence.  Images are opaque. -/

/-- An opaque grayscale image; pixel content is out of scope. -/
abbrev Face := Nat

/-- Embeds _prepare_face (lines 97-98): resizing acts only on pixel content,
which the embedding treats as opaque, so it is the identity on the handle. -/
def prepareFace (f : Face) : Face := f

/-- The trained recognizer of train_recognizer_from_dir: the sample list X and
the id list y it was trained on (lines 131-132). -/
structure Model where
  samples : List Face
  sampleIds : List Nat
deriving DecidableEq

/-- The triple of globals guarded by recognizer_lock (lines 52-55). -/
structure RecogState where
  recognizer : Option Model
  label2id : List (String × Nat)
  id2label : List (Nat × String)
deriving DecidableEq

/-- Accumulator of the training scan in train_recognizer_from_dir (lines 105-109). -/
structure TrainAcc where
  X : List Face
  y : List Nat
  l2i : List (String × Nat)
  i2l : List (Nat × String)
  nextId : Nat
deriving DecidableEq

/-- Embeds _iter_face_paths (lines 86-95): the training root is modelled as the
already-sorted directory listing, one (label, image files) pair per label
directory, each file carried as the result of cv2.imread on it (none for an
unreadable file). -/
def iterFacePaths (root : List (String × List (Option Face))) : List (String × Option Face) :=
  root.flatMap (fun lf => lf.2.map (fun f => (lf.1, f)))

/-- Embeds the body of the training scan (lines 111-125): an unreadable image
is skipped; a readable one is appended to X, the label gets a dense id on
first sight, and the id of the label is appended to y. -/
def trainStep (acc : TrainAcc) (lf : String × Option Face) : TrainAcc :=
  match lf.2 with
  | none => acc
  | some img =>
    let acc1 : TrainAcc := { acc with X := acc.X ++ [prepareFace img] }
    match acc1.l2i.lookup lf.1 with
    | none =>
      { acc1 with
        l2i := acc1.l2i ++ [(lf.1, acc1.nextId)]
        i2l := acc1.i2l ++ [(acc1.nextId, lf.1)]
        y := acc1.y ++ [acc1.nextId]
        nextId := acc1.nextId + 1 }
    | some id => { acc1 with y := acc1.y ++ [id] }

/-- Embeds train_recognizer_from_dir (lines 100-133): with recognition
disabled, or when no image was readable, the result is a null model with
empty maps; otherwise the trained model with the two label maps. -/
def trainRecognizerFromDir (enable : Bool) (root : List (String × List (Option Face))) :
    Option Model × List (String × Nat) × List (Nat × String) :=
  if !enable then (none, [], [])
  else
    let acc := (iterFacePaths root).foldl trainStep ⟨[], [], [], [], 0⟩
    if acc.X.isEmpty then (none, [], [])
    else (some ⟨acc.X, acc.y⟩, acc.l2i, acc.i2l)

/-- Embeds reload_recognizer (lines 135-146): the training computation either
returns a triple or raises; only on success are the three globals replaced
under the lock, and the call reports success; a raise leaves all three
untouched and reports failure. -/
def reloadRecognizer (outcome : Except Unit (Option Model × List (String × Nat) × List (Nat × String)))
    (st : RecogState) : Bool × RecogState :=
  match outcome with
  | .ok (rec, l2i, i2l) => (true, ⟨rec, l2i, i2l⟩)
  | .error _ => (false, st)

/-! ## Per-box recognition (detection_loop, lines 211-230)

The per-box body is embedded as a function of the data it inspects: whether a
model is loaded, whether this is a recognition cycle, the box dimensions,
whether the crop is nonempty, the copied id2label map, and the outcome of
rec.predict on the crop (none models a raise inside the try block). -/

/-- The inputs of one iteration of the per-box loop. -/
structure BoxInput where
  w : Nat
  h : Nat
  cropNonempty : Bool
  predictRes : Option (Nat × ℚ)
deriving DecidableEq

/-- Embeds lines 213-230 for one box: the result is (label, confidence,
whether rec.predict was invoked). -/
def processBox (recLoaded doRecogCycle : Bool) (labels : List (Nat × String)) (inp : BoxInput) :
    String × Option ℚ × Bool :=
  if recLoaded && doRecogCycle && decide (RECOG_MIN_SIDE ≤ min inp.w inp.h) then
    if inp.cropNonempty then
      match inp.predictRes with
      | some (pid, conf) =>
        if decide (conf ≤ RECOG_THRESHOLD) && (labels.lookup pid).isSome then
          ((labels.lookup pid).getD "unknown", some conf, true)
        else ("unknown", some conf, true)
      | none => ("unknown", none, true)
    else ("unknown", none, false)
  else ("unknown", none, false)

/-! ## Capture start handler (api_capture_start, lines 364-387) -/

/-- The capture_state dictionary (lines 306-314). -/
structure CaptureState where
  running : Bool
  label : Option String
  intervalMs : Nat
  targetCount : Nat
  saved : List String
  faceOnly : Bool
  retrainOnStop : Bool
deriving DecidableEq

/-- The request parameters of api_capture_start after parsing. -/
structure StartReq where
  label : Option String
  intervalMs : Nat
  targetCount : Nat
  faceOnly : Bool
  retrain : Bool
deriving DecidableEq

/-- The distinguishable results of api_capture_start: HTTP 400 for a missing
label, HTTP 409 while a session is running, HTTP 200 on start. -/
inductive StartResult where
  | badRequest
  | conflict
  | started
deriving DecidableEq

/-- Embeds api_capture_start (lines 364-387): label check first (400), then
the running check (409), else the state is replaced and a worker thread is
launched.  The Bool of the result records whether a worker was launched. -/
def apiCaptureStart (req : StartReq) (st : CaptureState) : StartResult × CaptureState × Bool :=
  match req.label with
  | none => (.badRequest, st, false)
  | some lb =>
    if st.running then (.conflict, st, false)
    else
      (.started,
        { running := true, label := some lb, intervalMs := req.intervalMs,
          targetCount := req.targetCount, saved := [], faceOnly := req.faceOnly,
          retrainOnStop := req.retrain },
        true)

/-! ## Capture stop handler (api_capture_stop, lines 389-397)

When a session is running, the handler sets the cancellation event and joins
the worker with a 2-second bound (line 396), then returns whatever
capture_state holds at that moment.  Whether the worker observes the
cancellation and finalizes (lines 358-359: store the local saved list, clear
running) within that bound depends on real time, which is out of scope, so
the join outcome is an explicit input of the embedding: with joinOk the
worker has finalized by the time the handler reads the state back, without
it the handler returns the stale state with running still true.  The pending
local list of the worker is part of the state. -/

/-- State relevant to api_capture_stop: the shared running flag and saved
list, plus the local list the live worker will store on finalization. -/
structure StopState where
  running : Bool
  saved : List String
  pendingSaved : List String
deriving DecidableEq

/-- The JSON body api_capture_stop returns. -/
structure StopResp where
  ok : Bool
  running : Bool
  saved : List String
deriving DecidableEq

/-- Finalization of the worker after it observes cancellation (lines 358-359):
store the local list, clear running. -/
def workerFinalize (s : StopState) : StopState :=
  { s with saved := s.pendingSaved, running := false }

/-- Embeds api_capture_stop (lines 389-397): when not running, report the
existing saved list unchanged; otherwise cancel and join with its bound —
when the worker finalizes within the bound (joinOk) the handler reports the
freshly stored list with running now false, and when the join times out it
reports the current stale list with running still true, changing nothing. -/
def apiCaptureStop (joinOk : Bool) (s : StopState) : StopResp × StopState :=
  if s.running then
    if joinOk then
      let t := workerFinalize s
      (⟨true, t.running, t.saved⟩, t)
    else (⟨true, s.running, s.saved⟩, s)
  else (⟨true, false, s.saved⟩, s)

/-! ## Vote stabilizer (detection_loop, lines 165 and 256-266)

pred_hist is a deque with maxlen max(1, VOTE_WINDOW); on each recognition
cycle the best guess (label, confidence or none) of the primary box is
appended.  The displayed label takes the non-unknown labels of the window,
picks the most frequent one (Counter.most_common with its stable, first-
encountered tie-break), and accepts it only with at least VOTE_REQUIRE
votes, annotated with the mean of its non-null confidences. -/

/-- One vote-window entry: (label, confidence or none). -/
abbrev VoteEntry := String × Option ℚ

/-- The deque maxlen used for pred_hist (line 165): max(1, VOTE_WINDOW). -/
def voteWindowLen : Nat := max 1 VOTE_WINDOW

/-- Append to a bounded deque: the oldest entry is evicted on overflow. -/
def dequePush (maxlen : Nat) (w : List VoteEntry) (x : VoteEntry) : List VoteEntry :=
  let w2 := w ++ [x]
  if maxlen < w2.length then w2.tail else w2

/-- The window reached after feeding a sequence of per-cycle entries into the
initially empty deque. -/
def buildWindow (maxlen : Nat) (entries : List VoteEntry) : List VoteEntry :=
  entries.foldl (dequePush maxlen) []

/-- Embeds Counter(labels).most_common(1)[0] (lines 262-263): scanning the
key list left to right, a later key replaces the current best only with a
strictly greater count, so the first-encountered label among those of
maximal count wins — the stable tie-break of Counter.  The count list and
the key list coincide here (duplicate keys repeat the same count, so the
selected label and count match the Counter result). -/
def pickTop (l : List String) : List String → Option (String × Nat)
  | [] => none
  | k :: ks =>
    match pickTop l ks with
    | none => some (k, l.count k)
    | some (b, m) => if l.count k < m then some (b, m) else some (k, l.count k)

/-- Embeds line 259: the labels of the non-unknown entries of the window. -/
def nonUnknownLabels (hist : List VoteEntry) : List String :=
  (hist.filter (fun p => p.1 ≠ "unknown")).map Prod.fst

/-- Embeds line 265: the non-null confidences the window holds for a label. -/
def confsFor (hist : List VoteEntry) (top : String) : List ℚ :=
  hist.filterMap (fun p => if p.1 = top then p.2 else none)

/-- Mean of a confidence list, none when the list is empty (the annotation of
line 266 is omitted exactly then). -/
def meanConf (cs : List ℚ) : Option ℚ :=
  if cs.isEmpty then none else some (cs.sum / (cs.length : ℚ))

/-- Embeds lines 259-266: the smoothed (label, annotation) of the window. -/
def voteSmooth (require : Nat) (hist : List VoteEntry) : VoteEntry :=
  let lbls := nonUnknownLabels hist
  match pickTop lbls lbls with
  | none => ("unknown", none)
  | some (top, votes) =>
    if require ≤ votes then (top, meanConf (confsFor hist top)) else ("unknown", none)

/-- The specification notion of the winning label: most frequent among the
non-unknown labels, ties broken towards the first-encountered one. -/
def FirstMostFrequent (l : List String) (top : String) : Prop :=
  top ∈ l ∧ (∀ m ∈ l, l.count m ≤ l.count top) ∧
    ∀ m ∈ l, l.count m = l.count top → l.indexOf top ≤ l.indexOf m

/-! ## Capture worker (lines 345-362)

The worker loop runs until the cancellation event is observed or the target
count is reached, then stores its local saved list, clears the running flag,
and only after that calls reload_recognizer when retrain_on_stop is set.
The loop is embedded with fuel (the real loop can spin forever when no face
is ever found and nothing cancels it); the finalization is recorded as an
event trace whose order is the order of the source lines 358-362. -/

/-- The observable finalization events of the capture worker. -/
inductive WEvent where
  | setSaved (fns : List String)
  | setRunningFalse
  | reload
deriving DecidableEq

/-- Embeds the worker loop (lines 351-356): cancel is the per-iteration read
of capture_event, saveRes the per-iteration outcome of _save_one_face. -/
def captureLoop (cancel : Nat → Bool) (saveRes : Nat → Option String) (target : Nat) :
    Nat → Nat → List String → Option (List String)
  | 0, _, _ => none
  | fuel + 1, k, acc =>
    if cancel k || decide (target ≤ acc.length) then some acc
    else
      match saveRes k with
      | some fn => captureLoop cancel saveRes target fuel (k + 1) (acc ++ [fn])
      | none => captureLoop cancel saveRes target fuel (k + 1) acc

/-- Embeds _capture_worker (lines 345-362): on loop exit the worker stores
saved, clears running, and then reloads when retrain_on_stop is set.  The
result pairs the final saved list with the finalization event trace. -/
def captureWorker (cancel : Nat → Bool) (saveRes : Nat → Option String) (target : Nat)
    (retrain : Bool) (fuel : Nat) : Option (List String × List WEvent) :=
  match captureLoop cancel saveRes target fuel 0 [] with
  | none => none
  | some saved =>
    some (saved, [WEvent.setSaved saved, WEvent.setRunningFalse] ++
      (if retrain then [WEvent.reload] else []))

/-- The order property claimed of the finalization trace: a reload happens
and it precedes the clearing of the running flag. -/
def ReloadBeforeIdle (tr : List WEvent) : Prop :=
  WEvent.reload ∈ tr ∧ tr.indexOf WEvent.reload < tr.indexOf WEvent.setRunningFalse

/-! ## Interleaved start handlers (api_capture_start lines 364-387,
api_register lines 558-572)

Flask serves requests on concurrent threads, and api_capture_start guards
the launch with a plain read of capture_state without any lock: the read on
line 371 and the update-and-launch on lines 374-386 are separate atomic
actions between which other threads may run.  The model is a small
interleaving transition system: each in-flight start request is a program
counter, a launch increments the number of live workers and sets running,
and a worker finishing clears running. -/

/-- Program counter of one in-flight start request. -/
inductive HandlerPc where
  | start
  | passedCheck
  | done
deriving DecidableEq

/-- Global state of the interleaving model: the running flag, the number of
live capture workers, and the in-flight request counters. -/
structure CapSys where
  running : Bool
  alive : Nat
  pcs : List HandlerPc
deriving DecidableEq

/-- One atomic action of the system: the conflict check of a handler (line
371), the update-and-launch of a handler that passed the check (lines
374-386), or a worker finishing (line 359). -/
inductive CapStep : CapSys → CapSys → Prop where
  | checkBusy (s : CapSys) (i : Nat) :
      s.pcs.get? i = some .start → s.running = true →
      CapStep s { s with pcs := s.pcs.set i .done }
  | checkFree (s : CapSys) (i : Nat) :
      s.pcs.get? i = some .start → s.running = false →
      CapStep s { s with pcs := s.pcs.set i .passedCheck }
  | launch (s : CapSys) (i : Nat) :
      s.pcs.get? i = some .passedCheck →
      CapStep s { running := true, alive := s.alive + 1, pcs := s.pcs.set i .done }
  | finish (s : CapSys) :
      0 < s.alive →
      CapStep s { s with running := false, alive := s.alive - 1 }

/-- The idle initial state with two pending start requests. -/
def capInit : CapSys := { running := false, alive := 0, pcs := [.start, .start] }

end SmartGuard

namespace SmartGuard

/-! ## Theorems -/

/-- C4: on every cycle i+1 (frame_idx starts at 1), with positive decimation
factors, the detector runs exactly when the index is divisible by
DETECT_EVERY_N, recognition exactly when it is divisible by RECOG_EVERY_N,
and on a non-detection cycle the box list of the previous cycle is reused. -/
theorem C4_decimation (n r : Nat) (hn : 0 < n) (hr : 0 < r)
    (detect : Nat → List FaceBox) (i : Nat) :
    (doDetect n (i + 1) = true ↔ (i + 1) % n = 0) ∧
    (doRecog r (i + 1) = true ↔ (i + 1) % r = 0) ∧
    facesSeq n detect (i + 1) =
      (if (i + 1) % n = 0 then detect (i + 1) else facesSeq n detect i) := by
  have hmn : max 1 n = n := Nat.max_eq_right hn
  have hmr : max 1 r = r := Nat.max_eq_right hr
  refine ⟨?_, ?_, ?_⟩
  · simp [doDetect, hmn]
  · simp [doRecog, hmr]
  · by_cases h : (i + 1) % n = 0
    · simp [facesSeq, doDetect, hmn, h]
    · simp [facesSeq, doDetect, hmn, h]

/-- Witness for C4 at the default factors DETECT_EVERY_N = 1, RECOG_EVERY_N = 2
and frame index 2. -/
theorem C4_decimation_witness :
    (doDetect DETECT_EVERY_N 2 = true ↔ 2 % DETECT_EVERY_N = 0) ∧
    (doRecog RECOG_EVERY_N 2 = true ↔ 2 % RECOG_EVERY_N = 0) ∧
    facesSeq DETECT_EVERY_N (fun j => [(j, 0, 0, 0)]) 2 =
      (if 2 % DETECT_EVERY_N = 0 then [(2, 0, 0, 0)] else facesSeq DETECT_EVERY_N (fun j => [(j, 0, 0, 0)]) 1) :=
  C4_decimation DETECT_EVERY_N RECOG_EVERY_N (by decide) (by decide) (fun j => [(j, 0, 0, 0)]) 1

/-- C9: the current-people snapshot returned for a query time now contains a
person of the last published list exactly when its timestamp is at most
CURRENT_EXPIRE_SEC old, and the returned list is a sublist of the published
one, so the published ordering is preserved. -/
theorem C9_current_people_expiry (now : ℚ) (people : List DetectedPerson) :
    (∀ p, p ∈ apiCurrent now people ↔ p ∈ people ∧ now - p.ts ≤ CURRENT_EXPIRE_SEC) ∧
    List.Sublist (apiCurrent now people) people := by
  refine ⟨fun p => ?_, List.filter_sublist people⟩
  simp [apiCurrent, List.mem_filter]

/-- C10: when training raises, reload_recognizer reports failure and the
recognizer, label2id and id2label globals are left exactly as they were. -/
theorem C10_reload_failure_keeps_state (st : RecogState) (e : Unit) :
    reloadRecognizer (.error e) st = (false, st) := rfl

/-- Counterexample to C7 as stated: at a running session whose worker holds
the pending file cap_0.jpg while the shared saved list still holds the stale
value of the session start, a first stop whose bounded join expires returns
the stale empty list, and a second stop whose join completes returns the
final one-element list — two stops in succession return different saved
lists. -/
theorem C7_counterexample :
    (apiCaptureStop false ⟨true, [], ["cap_0.jpg"]⟩).1.saved = [] ∧
    (apiCaptureStop true ((apiCaptureStop false ⟨true, [], ["cap_0.jpg"]⟩).2)).1.saved =
      ["cap_0.jpg"] ∧
    (([] : List String) ≠ ["cap_0.jpg"]) :=
  ⟨rfl, rfl, by decide⟩

/-- C7 amended: a stop made while no session is running is a no-op that
reports the existing saved list, whatever the join outcome; when the bounded
join of the first stop completes, a second stop in succession returns the
same final saved list and leaves the state where the first stop put it; a
stop whose join times out returns the current, possibly stale, saved list
with running still true and changes no state — so two stops can return
different lists only across a timed-out join. -/
theorem C7_stop_idempotent_amended (s : StopState) (joinOk2 : Bool) :
    (apiCaptureStop joinOk2 (apiCaptureStop true s).2).1.saved =
      (apiCaptureStop true s).1.saved ∧
    (apiCaptureStop joinOk2 (apiCaptureStop true s).2).2 = (apiCaptureStop true s).2 ∧
    (s.running = false → ∀ joinOk : Bool, apiCaptureStop joinOk s = (⟨true, false, s.saved⟩, s)) ∧
    (s.running = true → apiCaptureStop false s = (⟨true, true, s.saved⟩, s)) := by
  by_cases h : s.running
  · simp [apiCaptureStop, workerFinalize, h]
  · simp [apiCaptureStop, workerFinalize, h]

/-- Counterexample to C6 as stated: a StartCapture call carrying no label,
made while a session is running, returns the missing-label result (HTTP 400),
not the conflict result (HTTP 409). -/
theorem C6_counterexample :
    ({ running := true, label := some "alice", intervalMs := 200, targetCount := 20,
       saved := ["cap_1.jpg"], faceOnly := true, retrainOnStop := true } : CaptureState).running = true ∧
    (apiCaptureStart ⟨none, 200, 20, true, true⟩
      { running := true, label := some "alice", intervalMs := 200, targetCount := 20,
        saved := ["cap_1.jpg"], faceOnly := true, retrainOnStop := true }).1 ≠
      StartResult.conflict := by
  constructor
  · rfl
  · decide

/-- C6 amended: every StartCapture call that carries a label, made while a
session is running, returns the conflict result, leaves every field of the
existing session untouched, and launches no worker; a call without a label
returns the bad-request result, likewise changing nothing and launching
nothing. -/
theorem C6_start_conflict (req : StartReq) (st : CaptureState) (hrun : st.running = true) :
    ((req.label).isSome = true → apiCaptureStart req st = (.conflict, st, false)) ∧
    (req.label = none → apiCaptureStart req st = (.badRequest, st, false)) := by
  constructor
  · intro hlab
    match hl : req.label with
    | none => simp [hl] at hlab
    | some lb => simp [apiCaptureStart, hl, hrun]
  · intro hlab
    simp [apiCaptureStart, hlab]

/-- Witness for C6 amended: a labelled start request against a running session
returns conflict and changes nothing. -/
theorem C6_start_conflict_witness :
    apiCaptureStart ⟨some "bob", 200, 20, true, true⟩
      { running := true, label := some "alice", intervalMs := 200, targetCount := 20,
        saved := ["cap_1.jpg"], faceOnly := true, retrainOnStop := true } =
      (.conflict,
       { running := true, label := some "alice", intervalMs := 200, targetCount := 20,
         saved := ["cap_1.jpg"], faceOnly := true, retrainOnStop := true },
       false) :=
  (C6_start_conflict ⟨some "bob", 200, 20, true, true⟩
    { running := true, label := some "alice", intervalMs := 200, targetCount := 20,
      saved := ["cap_1.jpg"], faceOnly := true, retrainOnStop := true } rfl).1 rfl

/-- Helper: the Counter scan yields nothing exactly on an empty key list. -/
theorem pickTop_none (l : List String) :
    ∀ ks : List String, pickTop l ks = none ↔ ks = [] := by
  intro ks
  cases ks with
  | nil => simp [pickTop]
  | cons k ks =>
    simp only [pickTop]
    constructor
    · intro h
      match hrec : pickTop l ks with
      | none => rw [hrec] at h; simp at h
      | some (b, m) =>
        rw [hrec] at h
        by_cases hc : l.count k < m
        · simp [hc] at h
        · simp [hc] at h
    · intro h; cases h

/-- Helper: the pair the Counter scan selects is a member with its exact
count, the count is maximal, and among equal counts the selected key occurs
first. -/
theorem pickTop_spec (l : List String) :
    ∀ (ks : List String) (b : String) (m : Nat),
      pickTop l ks = some (b, m) →
      m = l.count b ∧ b ∈ ks ∧ (∀ k ∈ ks, l.count k ≤ m) ∧
        (∀ k ∈ ks, l.count k = m → ks.indexOf b ≤ ks.indexOf k) := by
  intro ks
  induction ks with
  | nil => intro b m h; simp [pickTop] at h
  | cons k ks ih =>
    intro b m h
    match hrec : pickTop l ks with
    | none =>
      have hks : ks = [] := (pickTop_none l ks).1 hrec
      subst hks
      simp only [pickTop] at h
      obtain ⟨hb, hm⟩ : k = b ∧ l.count k = m := by
        simp at h; exact ⟨h.1, h.2⟩
      subst hb; subst hm
      refine ⟨rfl, List.mem_cons_self _ _, ?_, ?_⟩
      · intro x hx
        rcases List.mem_cons.1 hx with rfl | hx2
        · exact Nat.le_refl _
        · cases hx2
      · intro x hx hcx
        simp [List.indexOf_cons_self]
    | some (b0, m0) =>
      simp only [pickTop, hrec] at h
      obtain ⟨hm0, hmem0, hmax0, htie0⟩ := ih b0 m0 hrec
      by_cases hc : l.count k < m0
      · rw [if_pos hc] at h
        obtain ⟨hb, hm⟩ : b0 = b ∧ m0 = m := by simp at h; exact ⟨h.1, h.2⟩
        subst hb; subst hm
        refine ⟨hm0, List.mem_cons_of_mem _ hmem0, ?_, ?_⟩
        · intro x hx
          rcases List.mem_cons.1 hx with rfl | hx2
          · exact Nat.le_of_lt hc
          · exact hmax0 x hx2
        · intro x hx hcx
          rcases List.mem_cons.1 hx with rfl | hx2
          · exact absurd hcx (Nat.ne_of_lt hc)
          · have hxk : x ≠ k := by
              intro he; subst he
              exact absurd hcx (Nat.ne_of_lt hc)
            by_cases hbk : b0 = k
            · rw [hbk, List.indexOf_cons_self]
              exact Nat.zero_le _
            · rw [List.indexOf_cons_ne _ (fun he => hbk he.symm),
                  List.indexOf_cons_ne _ (fun he => hxk he.symm)]
              exact Nat.succ_le_succ (htie0 x hx2 hcx)
      · rw [if_neg hc] at h
        obtain ⟨hb, hm⟩ : k = b ∧ l.count k = m := by simp at h; exact ⟨h.1, h.2⟩
        subst hb; subst hm
        refine ⟨rfl, List.mem_cons_self _ _, ?_, ?_⟩
        · intro x hx
          rcases List.mem_cons.1 hx with rfl | hx2
          · exact Nat.le_refl _
          · exact Nat.le_trans (hmax0 x hx2) (Nat.le_of_not_lt hc)
        · intro x hx hcx
          simp [List.indexOf_cons_self]

/-- Helper: a nonempty label list has a first-most-frequent label and the
Counter scan finds it with its count. -/
theorem exists_firstMostFrequent (l : List String) (hne : l ≠ []) :
    ∃ b, pickTop l l = some (b, l.count b) ∧ FirstMostFrequent l b := by
  match hpt : pickTop l l with
  | none => exact absurd ((pickTop_none l l).1 hpt) hne
  | some (b, m) =>
    obtain ⟨hm, hmem, hmax, htie⟩ := pickTop_spec l l b m hpt
    subst hm
    exact ⟨b, rfl, hmem, hmax, htie⟩

/-- Helper: the first-most-frequent label of a list is unique. -/
theorem firstMostFrequent_unique (l : List String) (a b : String)
    (ha : FirstMostFrequent l a) (hb : FirstMostFrequent l b) : a = b := by
  have hcc : l.count a = l.count b :=
    Nat.le_antisymm (hb.2.1 a ha.1) (ha.2.1 b hb.1)
  have hia : l.indexOf a ≤ l.indexOf b := ha.2.2 b hb.1 hcc.symm
  have hib : l.indexOf b ≤ l.indexOf a := hb.2.2 a ha.1 hcc
  have hieq : l.indexOf a = l.indexOf b := Nat.le_antisymm hia hib
  have hlta : l.indexOf a < l.length := List.indexOf_lt_length.2 ha.1
  have hltb : l.indexOf b < l.length := List.indexOf_lt_length.2 hb.1
  calc a = l.get ⟨l.indexOf a, hlta⟩ := (List.indexOf_get hlta).symm
    _ = l.get ⟨l.indexOf b, hltb⟩ := by congr 1; exact Fin.ext hieq
    _ = b := List.indexOf_get hltb

/-- Helper: with no non-unknown entry in the window the smoothed label is
unknown. -/
theorem voteSmooth_empty (require : Nat) (hist : List VoteEntry)
    (h : nonUnknownLabels hist = []) : voteSmooth require hist = ("unknown", none) := by
  simp only [voteSmooth, h]
  rfl

/-- Helper: the smoothed result, characterized through the specification
notion of the winning label. -/
theorem voteSmooth_of_firstMostFrequent (require : Nat) (hist : List VoteEntry) (top : String)
    (h : FirstMostFrequent (nonUnknownLabels hist) top) :
    voteSmooth require hist =
      if require ≤ (nonUnknownLabels hist).count top
      then (top, meanConf (confsFor hist top)) else ("unknown", none) := by
  have hne : nonUnknownLabels hist ≠ [] := by
    intro he; rw [he] at h; exact absurd h.1 (List.not_mem_nil top)
  obtain ⟨b, hpt, hb⟩ := exists_firstMostFrequent _ hne
  have hbt : b = top := firstMostFrequent_unique _ b top hb h
  subst hbt
  simp only [voteSmooth, hpt]

/-- C1: over every window reached by feeding recognition-cycle entries into
the bounded deque: with no non-unknown entry the smoothed label is unknown;
otherwise a unique first-most-frequent label L exists and the smoothed result
is L annotated with the mean of the non-null confidences of L (none when
there are none) when the votes of L reach VOTE_REQUIRE, and unknown
otherwise; in particular, with the default window 5 and require 3, the
window A,A,A,B,B smooths to A and the window A,B,C,D,E smooths to unknown. -/
theorem C1_vote_window_smoothing (entries : List VoteEntry) (top : String) :
    (nonUnknownLabels (buildWindow voteWindowLen entries) = [] →
      voteSmooth VOTE_REQUIRE (buildWindow voteWindowLen entries) = ("unknown", none)) ∧
    (nonUnknownLabels (buildWindow voteWindowLen entries) ≠ [] →
      ∃ t, FirstMostFrequent (nonUnknownLabels (buildWindow voteWindowLen entries)) t) ∧
    (FirstMostFrequent (nonUnknownLabels (buildWindow voteWindowLen entries)) top →
      voteSmooth VOTE_REQUIRE (buildWindow voteWindowLen entries) =
        if VOTE_REQUIRE ≤ (nonUnknownLabels (buildWindow voteWindowLen entries)).count top
        then (top, meanConf (confsFor (buildWindow voteWindowLen entries) top))
        else ("unknown", none)) ∧
    voteSmooth VOTE_REQUIRE (buildWindow voteWindowLen
      [("A", none), ("A", none), ("A", none), ("B", none), ("B", none)]) = ("A", none) ∧
    voteSmooth VOTE_REQUIRE (buildWindow voteWindowLen
      [("A", none), ("B", none), ("C", none), ("D", none), ("E", none)]) = ("unknown", none) := by
  refine ⟨voteSmooth_empty _ _, ?_, voteSmooth_of_firstMostFrequent _ _ _, by decide, by decide⟩
  intro hne
  obtain ⟨b, _, hb⟩ := exists_firstMostFrequent _ hne
  exact ⟨b, hb⟩

/-- Helper: a successful association-list lookup witnesses membership. -/
theorem mem_of_lookup_some {a : Nat} {b : String} :
    ∀ {l : List (Nat × String)}, l.lookup a = some b → (a, b) ∈ l := by
  intro l
  induction l with
  | nil => intro h; simp [List.lookup] at h
  | cons p l ih =>
    intro h
    match p with
    | (k, v) =>
      by_cases hk : (a == k) = true
      · have hak : a = k := beq_iff_eq.1 hk
        rw [List.lookup, hk] at h
        simp at h
        subst hak; subst h
        exact List.mem_cons_self _ _
      · have hk2 : (a == k) = false := by simpa using hk
        rw [List.lookup, hk2] at h
        exact List.mem_cons_of_mem _ (ih h)

/-- C2: for one box of one cycle, rec.predict is invoked only when a model is
loaded, the cycle is a recognition cycle, and the shorter box side reaches
RECOG_MIN_SIDE; a box below RECOG_MIN_SIDE is never sent to predict; and the
box carries a registry name only when predict returned a distance within
RECOG_THRESHOLD and an id present in the copied registry — in every other
case (no model, skipped cycle, small box, empty crop, a raise in predict,
a distance over the threshold, or a stale id) the label is unknown. -/
theorem C2_predict_guard (recLoaded doRecogCycle : Bool) (labels : List (Nat × String))
    (inp : BoxInput) :
    ((processBox recLoaded doRecogCycle labels inp).2.2 = true →
      recLoaded = true ∧ doRecogCycle = true ∧ RECOG_MIN_SIDE ≤ min inp.w inp.h) ∧
    (min inp.w inp.h < RECOG_MIN_SIDE →
      (processBox recLoaded doRecogCycle labels inp).2.2 = false) ∧
    ((processBox recLoaded doRecogCycle labels inp).1 ≠ "unknown" →
      ∃ pid conf, inp.predictRes = some (pid, conf) ∧ conf ≤ RECOG_THRESHOLD ∧
        labels.lookup pid = some (processBox recLoaded doRecogCycle labels inp).1) ∧
    (∀ pid conf, inp.predictRes = some (pid, conf) →
      (RECOG_THRESHOLD < conf ∨ labels.lookup pid = none) →
      (processBox recLoaded doRecogCycle labels inp).1 = "unknown") := by
  cases recLoaded with
  | false => simp [processBox]
  | true =>
  cases doRecogCycle with
  | false => simp [processBox]
  | true =>
  by_cases h3 : RECOG_MIN_SIDE ≤ min inp.w inp.h
  case neg =>
    have hlt : min inp.w inp.h < RECOG_MIN_SIDE := Nat.lt_of_not_le h3
    simp [processBox, h3, Nat.not_le.2 hlt]
  case pos =>
  cases hcrop : inp.cropNonempty with
  | false => simp [processBox, h3, hcrop]
  | true =>
  match hpr : inp.predictRes with
  | none =>
    simp [processBox, h3, hcrop, hpr]
    exact Nat.le_min.1 h3
  | some (pid, conf) =>
    by_cases hth : conf ≤ RECOG_THRESHOLD
    case neg =>
      simp [processBox, h3, hcrop, hpr, hth, Nat.lt_irrefl]
      exact Nat.le_min.1 h3
    case pos =>
    match hlk : labels.lookup pid with
    | none =>
      simp [processBox, h3, hcrop, hpr, hth, hlk]
      exact Nat.le_min.1 h3
    | some nm =>
      simp [processBox, h3, hcrop, hpr, hth, hlk]
      refine ⟨Nat.le_min.1 h3, fun hne => ⟨pid, conf, ⟨rfl, rfl⟩, hth, hlk⟩, ?_⟩
      rintro (hgt | hnone)
      · exact absurd hth (not_le.2 hgt)
      · exact absurd rfl (hnone pid nm (mem_of_lookup_some hlk))

/-- C8: a reload whose training scan finds no readable labelled image succeeds
and installs a null model with empty label maps, and with no model loaded the
per-box recognition of every subsequent cycle is a no-op: predict is never
invoked and every box is labelled unknown. -/
theorem C8_empty_training_reload (enable : Bool) (root : List (String × List (Option Face)))
    (st : RecogState)
    (h : ∀ lf ∈ root, ∀ img ∈ lf.2, img = none) :
    reloadRecognizer (Except.ok (trainRecognizerFromDir enable root)) st =
      (true, ⟨none, [], []⟩) ∧
    ∀ (doRecogCycle : Bool) (labels : List (Nat × String)) (inp : BoxInput),
      processBox (none : Option Model).isSome doRecogCycle labels inp = ("unknown", none, false) := by
  have hpairs : ∀ p ∈ iterFacePaths root, p.2 = (none : Option Face) := by
    intro p hp
    obtain ⟨lf, hlf, hp2⟩ := List.mem_flatMap.1 hp
    obtain ⟨f, hf, rfl⟩ := List.mem_map.1 hp2
    exact h lf hlf f hf
  have hfold : ∀ (pairs : List (String × Option Face)),
      (∀ p ∈ pairs, p.2 = (none : Option Face)) →
      ∀ acc : TrainAcc, pairs.foldl trainStep acc = acc := by
    intro pairs
    induction pairs with
    | nil => intro _ acc; rfl
    | cons p ps ih =>
      intro hall acc
      have hp : p.2 = none := hall p (List.mem_cons_self p ps)
      have hstep : trainStep acc p = acc := by
        unfold trainStep; rw [hp]
      rw [List.foldl_cons, hstep]
      exact ih (fun q hq => hall q (List.mem_cons_of_mem p hq)) acc
  have htrain : trainRecognizerFromDir enable root = (none, [], []) := by
    unfold trainRecognizerFromDir
    cases enable with
    | false => rfl
    | true =>
      simp only [Bool.not_true, if_false]
      rw [hfold (iterFacePaths root) hpairs]
      rfl
  rw [htrain]
  exact ⟨rfl, fun _ _ _ => rfl⟩

/-- Witness for C8: a root with one label directory whose two files are both
unreadable yields a successful reload to the null model and empty maps. -/
theorem C8_empty_training_reload_witness :
    reloadRecognizer
      (Except.ok (trainRecognizerFromDir true [("alice", [none, none])]))
      ⟨some ⟨[7], [0]⟩, [("bob", 0)], [(0, "bob")]⟩ =
      (true, ⟨none, [], []⟩) :=
  (C8_empty_training_reload true [("alice", [none, none])]
    ⟨some ⟨[7], [0]⟩, [("bob", 0)], [(0, "bob")]⟩ (by decide)).1

/-- Counterexample to C3 as stated: a concrete completed session with
retrainOnStop set whose finalization trace places the reload strictly after
the clearing of the running flag, so the reload does not complete before
running is set to false. -/
theorem C3_counterexample :
    captureWorker (fun _ => false) (fun _ => some "cap_0.jpg") 1 true 3 =
      some (["cap_0.jpg"],
        [WEvent.setSaved ["cap_0.jpg"], WEvent.setRunningFalse, WEvent.reload]) ∧
    ¬ ReloadBeforeIdle
      [WEvent.setSaved ["cap_0.jpg"], WEvent.setRunningFalse, WEvent.reload] :=
  ⟨rfl, by simp only [ReloadBeforeIdle]; decide⟩

/-- Helper: in the finalization trace the reload never precedes the
clearing of the running flag. -/
theorem not_reloadBeforeIdle_finalize (saved : List String) :
    ¬ ReloadBeforeIdle [WEvent.setSaved saved, WEvent.setRunningFalse, WEvent.reload] := by
  intro h
  have e1 : List.indexOf WEvent.reload
      [WEvent.setSaved saved, WEvent.setRunningFalse, WEvent.reload] = 2 := by
    rw [List.indexOf_cons_ne _ (fun he => WEvent.noConfusion he),
        List.indexOf_cons_ne _ (fun he => WEvent.noConfusion he),
        List.indexOf_cons_self]
  have e2 : List.indexOf WEvent.setRunningFalse
      [WEvent.setSaved saved, WEvent.setRunningFalse, WEvent.reload] = 1 := by
    rw [List.indexOf_cons_ne _ (fun he => WEvent.noConfusion he),
        List.indexOf_cons_self]
  simp only [ReloadBeforeIdle] at h
  rw [e1, e2] at h
  exact absurd h.2 (by omega)

/-- C3 amended: for every capture session with retrainOnStop set, whether it
ends by reaching targetCount or by cancellation, the worker stores the saved
list, then sets running to false, and only then calls Reload — so Reload is
still called synchronously on both completion paths, but running can read
false before the retrain has taken effect. -/
theorem C3_reload_after_running_false (cancel : Nat → Bool) (saveRes : Nat → Option String)
    (target fuel : Nat) (retrain : Bool) (saved : List String) (tr : List WEvent)
    (h : captureWorker cancel saveRes target retrain fuel = some (saved, tr)) :
    tr = [WEvent.setSaved saved, WEvent.setRunningFalse] ++
      (if retrain then [WEvent.reload] else []) ∧
    (retrain = true → WEvent.reload ∈ tr ∧ ¬ ReloadBeforeIdle tr) := by
  match hloop : captureLoop cancel saveRes target fuel 0 [] with
  | none => rw [captureWorker, hloop] at h; exact absurd h (by simp)
  | some s =>
    rw [captureWorker, hloop] at h
    simp only [Option.some.injEq, Prod.mk.injEq] at h
    obtain ⟨hs, htr⟩ := h
    subst hs
    refine ⟨htr.symm, ?_⟩
    intro hre
    subst hre
    rw [htr.symm]
    exact ⟨by simp, not_reloadBeforeIdle_finalize s⟩

/-- Witness for C3 amended, at the concrete completed session of the
counterexample: the reload event is in the trace and does not precede the
clearing of the running flag. -/
theorem C3_reload_after_running_false_witness :
    WEvent.reload ∈ [WEvent.setSaved ["cap_0.jpg"], WEvent.setRunningFalse, WEvent.reload] ∧
    ¬ ReloadBeforeIdle [WEvent.setSaved ["cap_0.jpg"], WEvent.setRunningFalse, WEvent.reload] :=
  (C3_reload_after_running_false (fun _ => false) (fun _ => some "cap_0.jpg") 1 3 true
    ["cap_0.jpg"] [WEvent.setSaved ["cap_0.jpg"], WEvent.setRunningFalse, WEvent.reload] rfl).2 rfl

/-- C5: the state in which two capture workers are alive is reachable: two
start handlers both pass the running check while running is false, then both
launch; the second launch fires from a state whose running flag is already
true and whose worker count is already one. -/
theorem C5_start_race :
    ∃ s t : CapSys,
      Relation.ReflTransGen CapStep capInit s ∧
      s.running = true ∧ s.alive = 1 ∧ CapStep s t ∧ t.alive = 2 := by
  refine ⟨⟨true, 1, [.done, .passedCheck]⟩, ⟨true, 2, [.done, .done]⟩, ?_, rfl, rfl, ?_, rfl⟩
  · have h1 : CapStep capInit ⟨false, 0, [.passedCheck, .start]⟩ :=
      CapStep.checkFree capInit 0 rfl rfl
    have h2 : CapStep ⟨false, 0, [.passedCheck, .start]⟩ ⟨false, 0, [.passedCheck, .passedCheck]⟩ :=
      CapStep.checkFree ⟨false, 0, [.passedCheck, .start]⟩ 1 rfl rfl
    have h3 : CapStep ⟨false, 0, [.passedCheck, .passedCheck]⟩ ⟨true, 1, [.done, .passedCheck]⟩ :=
      CapStep.launch ⟨false, 0, [.passedCheck, .passedCheck]⟩ 0 rfl
    exact Relation.ReflTransGen.head h1 (Relation.ReflTransGen.head h2 (Relation.ReflTransGen.single h3))
  · exact CapStep.launch ⟨true, 1, [.done, .passedCheck]⟩ 1 rfl

end SmartGuard
